import Mathlib

/-!
Verification of the vns-ga-utils visibility-tracking engine.

Shallow embedding of the `VnsGaUtil` class (src/src/internal_ga.js, final
generation): the rule registry (`addSectionVisibility`,
`dropSectionVisibility`), the viewport geometry calculator, the
intersection entry/exit transitions, the per-rule timer callback, the
scroll-sampling handler (`handleElementScroll`), the activation entry
point (`trackSectionVisibility`) and the return-visit tracker
(`trackUserReturn`).

Modelling conventions:
  - JavaScript numbers are modelled by the rationals; the non-finite
    values NaN and the two infinities, which the source can produce by dividing
    by a zero element height, are modelled explicitly by the `JNum` type.
  - JavaScript `Map` objects are modelled by association lists whose
    `set` replaces in place or appends, preserving insertion order.
  - `window.crypto.randomUUID()` is modelled as a fresh-identifier
    supply: a counter in the registry state minting distinct numeric ids.
  - DOM elements are modelled by records carrying the list of CSS
    selectors they match; `querySelectorAll` becomes a filter over that
    abstract matching relation.
-/

/-- Association-list lookup, modelling `Map.prototype.get`. -/
def getAssoc {α β : Type} [DecidableEq α] : List (α × β) → α → Option β
  | [], _ => none
  | (k1, v) :: t, k => if k1 = k then some v else getAssoc t k

/-- Association-list update, modelling `Map.prototype.set`: replaces the
entry in place when the key is present, otherwise appends (JS `Map`
preserves insertion order). -/
def setAssoc {α β : Type} [DecidableEq α] : List (α × β) → α → β → List (α × β)
  | [], k, v => [(k, v)]
  | (k1, v1) :: t, k, v =>
      if k1 = k then (k, v) :: t else (k1, v1) :: setAssoc t k v

/-- Association-list removal, modelling `Map.prototype.delete` (keys are
unique in a JS `Map`, so removing the first occurrence suffices). -/
def deleteAssoc {α β : Type} [DecidableEq α] : List (α × β) → α → List (α × β)
  | [], _ => []
  | (k1, v1) :: t, k => if k1 = k then t else (k1, v1) :: deleteAssoc t k

/-- A registered visibility rule, the `SectionVisibilitySettings` record
stored by `addSectionVisibility`. -/
structure Rule where
  id : Nat
  sectionName : String
  selector : String
  scrollDepth : ℚ
  viewTime : ℚ
  customEvent : String
deriving DecidableEq

/-- The user-supplied argument of `addSectionVisibility`, a
`Partial<SectionVisibilitySettings>`: every field may be absent.  A
present numeric zero and a present empty string are JavaScript-falsy and
are modelled as `some 0` / `some ""` so that the `||`-defaulting of the
source can be reproduced exactly. -/
structure SettingsArg where
  selector : Option String
  scrollDepth : Option ℚ
  viewTime : Option ℚ
  customEvent : Option String
deriving DecidableEq

/-- JavaScript `a || d` for a possibly-absent string `a` (absent and `""`
are falsy). -/
def strOr (v : Option String) (d : String) : String :=
  match v with
  | none => d
  | some s => if s = "" then d else s

/-- JavaScript `a || d` for a possibly-absent finite number `a` (absent
and `0` are falsy). -/
def numOr (v : Option ℚ) (d : ℚ) : ℚ :=
  match v with
  | none => d
  | some x => if x = 0 then d else x

/-- The private helper `#_claim(value, min, max)` of the source:
`Math.min(max, Math.max(min, value))`. -/
def claim (value lo hi : ℚ) : ℚ := min hi (max lo value)

/-- The default selector string of `addSectionVisibility`:
the attribute selector derived from the section name. -/
def defaultSelector (sectionName : String) : String :=
  "[data-internal-view=\"" ++ sectionName ++ "\"]"

/-- The event name actually used when a rule fires: the ternary
`setting.customEvent ? setting.customEvent : "view_" + setting.section`
appearing at both fire sites of the source. -/
def effectiveEvent (s : Rule) : String :=
  if s.customEvent = "" then "view_" ++ s.sectionName else s.customEvent

/-- The rule-registry part of the `VnsGaUtil` instance state:
the id-keyed map `#sectionVisibility`, the selector-keyed index
`#selectorVisibilityMap`, and the fresh-id counter modelling
`randomUUID`. -/
structure Registry where
  sectionVisibility : List (Nat × Rule)
  selectorVisibilityMap : List (String × List Rule)
  nextId : Nat
deriving DecidableEq

/-- The empty registry of a fresh `VnsGaUtil` instance. -/
def initRegistry : Registry := { sectionVisibility := [], selectorVisibilityMap := [], nextId := 0 }

/-- The rule record built by `addSectionVisibility` before storing it. -/
def builtRule (st : Registry) (sectionName : String) (settings : SettingsArg) : Rule :=
  { id := st.nextId
    sectionName := sectionName
    selector := strOr settings.selector (defaultSelector sectionName)
    scrollDepth := claim (numOr settings.scrollDepth 70) 0 100
    viewTime := max (numOr settings.viewTime 3000) 0
    customEvent := strOr settings.customEvent "" }

/-- The public `addSectionVisibility(section, settings)` method: fills
defaults, clamps, stores the rule in both indices and returns the fresh
rule id. -/
def addSectionVisibility (st : Registry) (sectionName : String) (settings : SettingsArg) :
    Registry × Nat :=
  let s := builtRule st sectionName settings
  let selectorSettings := (getAssoc st.selectorVisibilityMap s.selector).getD []
  ({ st with
      sectionVisibility := setAssoc st.sectionVisibility s.id s
      selectorVisibilityMap :=
        setAssoc st.selectorVisibilityMap s.selector (selectorSettings ++ [s])
      nextId := st.nextId + 1 },
   s.id)

/-- The public `dropSectionVisibility(id)` method: silent no-op when the
id is absent, otherwise deletes from the id-keyed map and filters the
rule out of the selector-keyed list (the early return keeps the list
untouched when it is missing or empty). -/
def dropSectionVisibility (st : Registry) (id : Nat) : Registry :=
  match getAssoc st.sectionVisibility id with
  | none => st
  | some settings =>
    let selector := settings.selector
    let st1 := { st with sectionVisibility := deleteAssoc st.sectionVisibility id }
    match getAssoc st1.selectorVisibilityMap selector with
    | none => st1
    | some old =>
      if old.length ≤ 0 then st1
      else
        { st1 with
            selectorVisibilityMap :=
              setAssoc st1.selectorVisibilityMap selector (old.filter (fun s => s.id ≠ id)) }

/-- The `getRegisteredSelectors` closure of `trackSectionVisibility`:
`Array.from(this.#selectorVisibilityMap.keys())`. -/
def getRegisteredSelectors (st : Registry) : List String :=
  st.selectorVisibilityMap.map Prod.fst

/-- Reachable-state invariant of the fresh-id supply: every id already
stored is below the counter, so the next minted id is new. -/
def FreshIds (st : Registry) : Prop :=
  ∀ p ∈ st.sectionVisibility, p.1 < st.nextId

/-- A JavaScript number as produced by the geometry calculator: a finite
rational, or one of the non-finite values that an unguarded division by
a zero element height yields. -/
inductive JNum where
  | nan : JNum
  | inf : JNum
  | ninf : JNum
  | num : ℚ → JNum
deriving DecidableEq

/-- Finite projection of a `JNum` (0 on non-finite values); used only in
theorem statements, always together with `isNum`. -/
def JNum.val : JNum → ℚ
  | .num q => q
  | _ => 0

/-- Whether a `JNum` is a finite number. -/
def JNum.isNum : JNum → Bool
  | .num _ => true
  | _ => false

/-- JavaScript division of finite numbers: `0/0` is NaN and `a/0` for
`a ≠ 0` is a signed infinity. -/
def jdiv (a b : ℚ) : JNum :=
  if b = 0 then
    if a = 0 then .nan else if 0 < a then .inf else .ninf
  else .num (a / b)

/-- Multiplication of a JavaScript number by the positive constant 100. -/
def jmul100 : JNum → JNum
  | .nan => .nan
  | .inf => .inf
  | .ninf => .ninf
  | .num q => .num (q * 100)

/-- JavaScript `Math.round` on a finite number: round half toward
positive infinity, which is `round` on the rationals. -/
def jsRound (q : ℚ) : ℚ := ((round q : ℤ) : ℚ)

/-- JavaScript `+x.toFixed(2)`: rounding a finite number to two decimal
places (NaN and the infinities round-trip through their string forms
unchanged). -/
def toFixed2 : JNum → JNum
  | .nan => .nan
  | .inf => .inf
  | .ninf => .ninf
  | .num q => .num (((round (q * 100) : ℤ) : ℚ) / 100)

/-- Addition of a finite constant to a JavaScript number. -/
def jaddc : JNum → ℚ → JNum
  | .nan, _ => .nan
  | .inf, _ => .inf
  | .ninf, _ => .ninf
  | .num q, c => .num (q + c)

/-- JavaScript `Math.min(a, c)` with a finite second argument: NaN
propagates, an infinite first argument resolves by order. -/
def jminc : JNum → ℚ → JNum
  | .nan, _ => .nan
  | .inf, c => .num c
  | .ninf, _ => .ninf
  | .num q, c => .num (min q c)

/-- JavaScript `Math.min` on two JavaScript numbers (NaN propagates). -/
def jmin : JNum → JNum → JNum
  | .nan, _ => .nan
  | _, .nan => .nan
  | .ninf, _ => .ninf
  | _, .ninf => .ninf
  | .inf, b => b
  | a, .inf => a
  | .num a, .num b => .num (min a b)

/-- JavaScript `Math.max` on two JavaScript numbers (NaN propagates). -/
def jmax : JNum → JNum → JNum
  | .nan, _ => .nan
  | _, .nan => .nan
  | .inf, _ => .inf
  | _, .inf => .inf
  | .ninf, b => b
  | a, .ninf => a
  | .num a, .num b => .num (max a b)

/-- JavaScript subtraction of two JavaScript numbers. -/
def jsub : JNum → JNum → JNum
  | .nan, _ => .nan
  | _, .nan => .nan
  | .inf, .inf => .nan
  | .inf, _ => .inf
  | .ninf, .ninf => .nan
  | .ninf, _ => .ninf
  | .num _, .inf => .ninf
  | .num _, .ninf => .inf
  | .num a, .num b => .num (a - b)

/-- JavaScript comparison `a < c` with a finite right-hand side: false
whenever the left-hand side is NaN. -/
def JNum.ltc : JNum → ℚ → Bool
  | .nan, _ => false
  | .inf, _ => false
  | .ninf, _ => true
  | .num q, c => decide (q < c)

/-- An element bounding rectangle as returned by
`getBoundingClientRect`: the fields the source reads. -/
structure Rect where
  top : ℚ
  bottom : ℚ
  height : ℚ
deriving DecidableEq

/-- The scrolled-past ratio of `handleElementScroll` (and of the
intersection-entry branch): `+((Math.max(0, -rect.top) / rect.height) *
100).toFixed(2)` — the division is unguarded. -/
def ratioTopOf (rect : Rect) : JNum :=
  toFixed2 (jmul100 (jdiv (max 0 (-rect.top)) rect.height))

/-- The currently-visible ratio of `handleElementScroll`: 0 when the
element is fully above or fully below the viewport, otherwise the
overlap divided by the height, guarded so that a zero height yields 0. -/
def sampleVisibleRatio (viewportHeight : ℚ) (rect : Rect) : ℚ :=
  if rect.bottom < 0 then 0
  else if viewportHeight < rect.top then 0
  else
    let visibleTop := max 0 (-rect.top)
    let visibleBottom := min rect.height (viewportHeight - rect.top)
    let visibleHeight := max 0 (visibleBottom - visibleTop)
    if 0 < rect.height then jsRound (visibleHeight / rect.height * 100) else 0

/-- The combined per-sample depth of `handleElementScroll`:
`Math.min(ratioTop + visibleRatio, 100)`. -/
def sampleDepth (viewportHeight : ℚ) (rect : Rect) : JNum :=
  jminc (jaddc (ratioTopOf rect) (sampleVisibleRatio viewportHeight rect)) 100

/-- The per-episode tracked state, the `SectionTrackedData` record stored
in `#sectionMap`.  The DOM element reference is not stored: each scroll
sample instead receives the rectangle the element would report.  The
optional `_sentEventIds` field (read through `?? []` at every use site)
is modelled as a plain list initialised empty. -/
structure SectionTrackedData where
  start : ℚ
  duration : ℚ
  minScrollDepth : JNum
  maxScrollDepth : JNum
  selector : String
  id : Nat
  sentEventIds : List Nat
deriving DecidableEq

/-- An event object pushed onto `window.dataLayer` by the engine. -/
structure Payload where
  event : String
  sectionName : String
  viewTime : ℚ
  scrollDepth : JNum
deriving DecidableEq

/-- The intersecting branch of the `IntersectionObserver` callback: mint
the episode record with `start = now`, the scrolled-past ratio of the
entry rectangle as the initial minimum, and
`Math.min(ratioTop + intersectionRatio * 100, 100)` as the initial
maximum. -/
def entrySection (selector : String) (id : Nat) (now : ℚ) (rect : Rect)
    (intersectionRatio : ℚ) : SectionTrackedData :=
  let ratioTop := ratioTopOf rect
  { start := now
    duration := 0
    minScrollDepth := ratioTop
    maxScrollDepth := jminc (jaddc ratioTop (intersectionRatio * 100)) 100
    selector := selector
    id := id
    sentEventIds := [] }

/-- The timers armed by the intersecting branch: one per rule registered
against the selector whose `viewTime` is positive; each timer captures
the full rule record. -/
def armedTimers (reg : Registry) (selector : String) : List Rule :=
  ((getAssoc reg.selectorVisibilityMap selector).getD []).filter (fun s => 0 < s.viewTime)

/-- The body of the per-rule `setTimeout` callback: no-op when the
episode is gone, when the rule id is already in the fired set, or when
the depth interval is below the rule threshold; otherwise emit the
rule's event and record the rule id.  The captured `setting` is used as
is — the registry is never consulted again. -/
def timerFire (setting : Rule) (msec : Option SectionTrackedData) :
    Option SectionTrackedData × List Payload :=
  match msec with
  | none => (none, [])
  | some newSection =>
    let sentIds := newSection.sentEventIds
    if setting.id ∈ sentIds then (some newSection, [])
    else
      let scrollDepth := jsub newSection.maxScrollDepth newSection.minScrollDepth
      if scrollDepth.ltc setting.scrollDepth then (some newSection, [])
      else
        (some { newSection with sentEventIds := sentIds ++ [setting.id] },
         [{ event := effectiveEvent setting
            sectionName := setting.sectionName
            viewTime := setting.viewTime
            scrollDepth := scrollDepth }])

/-- One iteration of the rule loop at the end of `handleElementScroll`.
The membership check and the write-back both use `sentEventIds`, the
list captured before the loop, exactly as the source does. -/
def scrollRuleStep (sentEventIds : List Nat) (duration : ℚ) (sectionView : JNum)
    (acc : SectionTrackedData × List Payload) (setting : Rule) :
    SectionTrackedData × List Payload :=
  if setting.id ∈ sentEventIds then acc
  else if sectionView.ltc setting.scrollDepth then acc
  else if duration < setting.viewTime then acc
  else
    ({ acc.1 with sentEventIds := sentEventIds ++ [setting.id] },
     acc.2 ++ [{ event := effectiveEvent setting
                 sectionName := setting.sectionName
                 viewTime := duration
                 scrollDepth := sectionView }])

/-- The scroll-sampling handler `handleElementScroll`: early return when
the selector attribute is missing, otherwise widen the depth interval
from the sampled rectangle and run the rule loop over the rules
registered against the selector. -/
def handleElementScroll (reg : Registry) (now viewportHeight : ℚ) (rect : Rect)
    (sect : SectionTrackedData) : SectionTrackedData × List Payload :=
  if sect.selector = "" then (sect, [])
  else
    let ratioTop := ratioTopOf rect
    let depth := sampleDepth viewportHeight rect
    let minScrollDepth := jmin sect.minScrollDepth ratioTop
    let maxScrollDepth := jmax sect.maxScrollDepth depth
    let sect1 := { sect with minScrollDepth := minScrollDepth, maxScrollDepth := maxScrollDepth }
    let duration := now - sect1.start
    let sectionView := jsub maxScrollDepth minScrollDepth
    let settings := (getAssoc reg.selectorVisibilityMap sect1.selector).getD []
    let sentEventIds := sect1.sentEventIds
    settings.foldl (scrollRuleStep sentEventIds duration sectionView) (sect1, [])

/-- The not-intersecting branch of the `IntersectionObserver` callback:
emit the terminal `section_view` summary event and discard the episode.
The registry plays no part in this branch. -/
def exitStep (now : ℚ) (selector : String) (msec : Option SectionTrackedData) :
    Option SectionTrackedData × List Payload :=
  match msec with
  | none => (none, [])
  | some tracked =>
    let duration := now - tracked.start
    let scrollDepth := jsub tracked.maxScrollDepth tracked.minScrollDepth
    (none,
     [{ event := "section_view"
        sectionName := selector
        viewTime := duration
        scrollDepth := scrollDepth }])

/-- The observable outcome of one `trackUserReturn()` call. -/
structure TrackUserReturnResult where
  events : List (String × ℚ)
  armedCloseTab : Bool
deriving DecidableEq

/-- The public `trackUserReturn()` method.  The session-cookie read is
abstracted to a pre-parsed timestamp (`none` models an absent or empty
cookie, the falsy cases of the source; `+lastVisit` numeric coercion is
absorbed into the abstraction).  When the cookie is missing the method
returns `false` immediately — in particular `addEventListener` for the
`beforeunload` close-tab handler is never reached. -/
def trackUserReturn (lastVisit : Option ℚ) (now : ℚ) : TrackUserReturnResult :=
  match lastVisit with
  | none => { events := [], armedCloseTab := false }
  | some t =>
    { events := [("return_visit", now - t)], armedCloseTab := true }

/-- A DOM element in the abstract document model: an identity and the
set of CSS selectors it matches (CSS matching itself is abstracted). -/
structure DomElem where
  eid : Nat
  sels : List String
deriving DecidableEq

/-- Whether an element matches a selector (`node.matches(selector)` and
membership in `querySelectorAll(selector)`). -/
def elemMatches (e : DomElem) (sel : String) : Bool := sel ∈ e.sels

/-- The observable infrastructure state touched by
`trackSectionVisibility`: the lazy-initialisation flag, counts of the
resources each initialisation step registers, the set of elements under
intersection observation, and the `data-internal-view-selector` tags
written on elements. -/
structure TrackState where
  isVisibilityTrackingInitialized : Bool
  intersectionObservers : Nat
  scrollResizeListeners : Nat
  beforeUnloadListeners : Nat
  mutationObservers : Nat
  observed : List Nat
  tagged : List (Nat × String)
deriving DecidableEq

/-- The infrastructure state of a fresh instance. -/
def initTrackState : TrackState :=
  { isVisibilityTrackingInitialized := false
    intersectionObservers := 0
    scrollResizeListeners := 0
    beforeUnloadListeners := 0
    mutationObservers := 0
    observed := []
    tagged := [] }

/-- The private `#_initVisibilityTracking` method: guarded by the
`#isVisibilityTrackingInitialized` flag, it runs
`#_initSectionVisibilityTracking` (one `IntersectionObserver`, one
`beforeunload` listener) and `#_initScrollDepthTracking` (one `scroll`
and one `resize` listener) exactly once. -/
def initVisibilityTracking (ts : TrackState) : TrackState :=
  if ts.isVisibilityTrackingInitialized then ts
  else
    { ts with
        isVisibilityTrackingInitialized := true
        intersectionObservers := ts.intersectionObservers + 1
        beforeUnloadListeners := ts.beforeUnloadListeners + 1
        scrollResizeListeners := ts.scrollResizeListeners + 2 }

/-- List insertion that is a no-op on an already-present entry:
`IntersectionObserver.observe` does nothing when the target is already
in the observer's target list. -/
def insertIfAbsent (l : List Nat) (x : Nat) : List Nat :=
  if x ∈ l then l else l ++ [x]

/-- The private `#_trackSectionView(section, selectionString)` method:
tag the element with the resolved selector and start observing it. -/
def trackSectionView (ts : TrackState) (e : DomElem) (sel : String) : TrackState :=
  { ts with
      tagged := setAssoc ts.tagged e.eid sel
      observed := insertIfAbsent ts.observed e.eid }

/-- One selector of the initial scan:
`document.querySelectorAll(selector).forEach(section =>
this.#_trackSectionView(section, selector))`. -/
def scanSelector (dom : List DomElem) (sel : String) (ts : TrackState) : TrackState :=
  (dom.filter (fun e => elemMatches e sel)).foldl (fun ts e => trackSectionView ts e sel) ts

/-- The initial scan of `trackSectionVisibility` over every registered
selector. -/
def initialScan (reg : Registry) (dom : List DomElem) (ts : TrackState) : TrackState :=
  (getRegisteredSelectors reg).foldl (fun ts sel => scanSelector dom sel ts) ts

/-- The public `trackSectionVisibility()` method: run the flag-guarded
initialisation, construct and register a fresh `MutationObserver` on
`document.body` (this happens on every call), and perform the initial
scan over the registered selectors. -/
def trackSectionVisibility (reg : Registry) (dom : List DomElem) (ts : TrackState) : TrackState :=
  let ts1 := initVisibilityTracking ts
  let ts2 := { ts1 with mutationObservers := ts1.mutationObservers + 1 }
  initialScan reg dom ts2

theorem getAssoc_setAssoc_self {α β : Type} [DecidableEq α] (l : List (α × β)) (k : α) (v : β) :
    getAssoc (setAssoc l k v) k = some v := by
  induction l with
  | nil => simp [getAssoc, setAssoc]
  | cons p t ih =>
    obtain ⟨k1, v1⟩ := p
    by_cases h : k1 = k <;> simp [getAssoc, setAssoc, h, ih]

theorem getAssoc_setAssoc_other {α β : Type} [DecidableEq α] (l : List (α × β)) (k k2 : α)
    (v : β) (h : k2 ≠ k) : getAssoc (setAssoc l k v) k2 = getAssoc l k2 := by
  induction l with
  | nil => simp [getAssoc, setAssoc, Ne.symm h]
  | cons p t ih =>
    obtain ⟨k1, v1⟩ := p
    by_cases h1 : k1 = k
    · subst h1
      simp [getAssoc, setAssoc, Ne.symm h]
    · by_cases h2 : k1 = k2 <;> simp [getAssoc, setAssoc, h1, h2, h, ih]

theorem getAssoc_eq_none_of_not_mem_keys {α β : Type} [DecidableEq α] (l : List (α × β))
    (k : α) (h : k ∉ l.map Prod.fst) : getAssoc l k = none := by
  induction l with
  | nil => simp [getAssoc]
  | cons p t ih =>
    obtain ⟨k1, v1⟩ := p
    simp only [List.map_cons, List.mem_cons] at h
    push_neg at h
    simp [getAssoc, Ne.symm h.1, ih h.2]

theorem getAssoc_deleteAssoc_self {α β : Type} [DecidableEq α] (l : List (α × β)) (k : α)
    (h : (l.map Prod.fst).Nodup) : getAssoc (deleteAssoc l k) k = none := by
  induction l with
  | nil => simp [deleteAssoc, getAssoc]
  | cons p t ih =>
    obtain ⟨k1, v1⟩ := p
    simp only [List.map_cons, List.nodup_cons] at h
    by_cases h1 : k1 = k
    · subst h1
      simp [deleteAssoc, getAssoc_eq_none_of_not_mem_keys t k1 h.1]
    · simp [deleteAssoc, getAssoc, h1, ih h.2]

theorem mem_setAssoc {α β : Type} [DecidableEq α] (l : List (α × β)) (k : α) (v : β)
    (p : α × β) (h : p ∈ setAssoc l k v) : p ∈ l ∨ p = (k, v) := by
  induction l with
  | nil => simp [setAssoc] at h; simp [h]
  | cons q t ih =>
    obtain ⟨k1, v1⟩ := q
    by_cases h1 : k1 = k <;> simp only [setAssoc, h1, if_true, if_false] at h <;>
      rcases List.mem_cons.mp h with h2 | h2 <;> simp_all <;> tauto

theorem mem_keys_setAssoc {α β : Type} [DecidableEq α] (l : List (α × β)) (k : α) (v : β) :
    k ∈ (setAssoc l k v).map Prod.fst := by
  induction l with
  | nil => simp [setAssoc]
  | cons p t ih =>
    obtain ⟨k1, v1⟩ := p
    by_cases h1 : k1 = k <;> simp [setAssoc, h1, ih]

theorem addSectionVisibility_lookup (st : Registry) (sectionName : String)
    (settings : SettingsArg) :
    getAssoc (addSectionVisibility st sectionName settings).1.sectionVisibility
      (addSectionVisibility st sectionName settings).2 =
    some (builtRule st sectionName settings) := by
  simp [addSectionVisibility, getAssoc_setAssoc_self]

/-- C1: the claim states that no (episode, rule) pair ever double-emits,
the fired-rule set being checked before and updated after every
emission.  The code violates this: the rule loop of
`handleElementScroll` writes `[...sentEventIds, settingId]` using the
list captured before the loop, so when two rules fire in the same pass
the first mark is overwritten and a later pass emits the first rule
again.  With rules (20%, 1000ms, "e1") and (60%, 2000ms, "e2") on one
selector, an episode entered at full visibility and sampled at t = 3000
and t = 4000 emits "e1" twice. -/
theorem scrollLoop_double_emits_same_rule :
    (let reg := (addSectionVisibility
        (addSectionVisibility initRegistry "s" ⟨none, some 20, some 1000, some "e1"⟩).1
        "s" ⟨none, some 60, some 2000, some "e2"⟩).1
     let sec0 := entrySection (defaultSelector "s") 99 0 ⟨0, 100, 100⟩ (1/2)
     let step1 := handleElementScroll reg 3000 800 ⟨-80, 20, 100⟩ sec0
     let step2 := handleElementScroll reg 4000 800 ⟨-80, 20, 100⟩ step1.1
     ((step1.2 ++ step2.2).filter (fun p => p.event = "e1")).length) = 2 := by
  simp only [addSectionVisibility, builtRule, initRegistry, strOr, numOr, claim, defaultSelector,
    entrySection, handleElementScroll, scrollRuleStep, ratioTopOf, sampleVisibleRatio, sampleDepth,
    jdiv, jmul100, toFixed2, jaddc, jminc, jmin, jmax, jsub, JNum.ltc, jsRound,
    getAssoc, setAssoc, effectiveEvent, List.foldl, List.filter]
  norm_num
  simp [scrollRuleStep, effectiveEvent, JNum.ltc, List.filter, getAssoc]

/-- C2: the claim states that with no session cookie present,
`trackUserReturn` emits nothing but still arms the page-abandonment
handler.  The code contradicts this: the early `return false` sits
before the `addEventListener("beforeunload", ...)` call, so on a
cookie-less load no handler is armed (and hence the session cookie,
written only by that handler, is never persisted). -/
theorem trackUserReturn_missing_cookie_skips_arming :
    trackUserReturn none 5000 =
      { events := [], armedCloseTab := false } ∧
    (trackUserReturn none 5000).armedCloseTab = false := by
  exact ⟨rfl, rfl⟩

/-- C4: `addSectionVisibility` fills defaults and clamps exactly as
claimed — the selector defaults to the attribute selector derived from
the section name, `scrollDepth` defaults to 70 and is clamped into
[0, 100] (150 and -10 become 100 and 0), `viewTime` defaults to 3000
and is floored at 0 (-500 becomes 0), the effective event name defaults
to `view_` plus the section name when the custom event is empty, and
the returned id is the freshly minted one, new to the registry whenever
the fresh-id invariant holds (and that invariant is preserved). -/
theorem addSectionVisibility_defaults_clamps_fresh_id
    (st : Registry) (sectionName : String) (settings : SettingsArg) :
    getAssoc (addSectionVisibility st sectionName settings).1.sectionVisibility
        (addSectionVisibility st sectionName settings).2 =
      some (builtRule st sectionName settings) ∧
    (settings.selector = none →
      (builtRule st sectionName settings).selector = defaultSelector sectionName) ∧
    (settings.scrollDepth = none → (builtRule st sectionName settings).scrollDepth = 70) ∧
    0 ≤ (builtRule st sectionName settings).scrollDepth ∧
    (builtRule st sectionName settings).scrollDepth ≤ 100 ∧
    (settings.scrollDepth = some 150 → (builtRule st sectionName settings).scrollDepth = 100) ∧
    (settings.scrollDepth = some (-10) → (builtRule st sectionName settings).scrollDepth = 0) ∧
    (settings.viewTime = none → (builtRule st sectionName settings).viewTime = 3000) ∧
    0 ≤ (builtRule st sectionName settings).viewTime ∧
    (settings.viewTime = some (-500) → (builtRule st sectionName settings).viewTime = 0) ∧
    (settings.customEvent = none ∨ settings.customEvent = some "" →
      effectiveEvent (builtRule st sectionName settings) = "view_" ++ sectionName) ∧
    (addSectionVisibility st sectionName settings).2 = st.nextId ∧
    (FreshIds st →
      getAssoc st.sectionVisibility (addSectionVisibility st sectionName settings).2 = none ∧
      FreshIds (addSectionVisibility st sectionName settings).1) := by
  refine ⟨addSectionVisibility_lookup st sectionName settings, ?_, ?_, ?_, ?_, ?_, ?_, ?_, ?_,
    ?_, ?_, ?_, ?_⟩
  · intro h; simp [builtRule, strOr, h]
  · intro h; simp only [builtRule, numOr, claim, h]; norm_num [min_def, max_def]
  · simp only [builtRule, claim]
    exact le_min (by norm_num) (le_max_left 0 _)
  · simp only [builtRule, claim]
    exact min_le_left 100 _
  · intro h; simp only [builtRule, numOr, claim, h]; norm_num [min_def, max_def]
  · intro h; simp only [builtRule, numOr, claim, h]; norm_num [min_def, max_def]
  · intro h; simp only [builtRule, numOr, h]; norm_num [max_def]
  · simp only [builtRule]
    exact le_max_right _ 0
  · intro h; simp only [builtRule, numOr, h]; norm_num [max_def]
  · rintro (h | h) <;> simp [builtRule, effectiveEvent, strOr, h]
  · simp [addSectionVisibility, builtRule]
  · intro hf
    constructor
    · apply getAssoc_eq_none_of_not_mem_keys
      intro hmem
      rcases List.mem_map.mp hmem with ⟨p, hp, he⟩
      have := hf p hp
      simp [addSectionVisibility, builtRule] at he
      omega
    · intro p hp
      simp only [addSectionVisibility] at hp
      rcases mem_setAssoc _ _ _ _ hp with h2 | h2
      · have := hf p h2
        simp [addSectionVisibility]
        omega
      · simp [addSectionVisibility, h2, builtRule]

/-- Witness for the C4 theorem at a concrete input: the empty registry,
section name "x" and all-absent settings. -/
theorem addSectionVisibility_defaults_clamps_fresh_id_witness :
    (builtRule initRegistry "x" ⟨none, none, none, none⟩).scrollDepth = 70 ∧
    (builtRule initRegistry "x" ⟨none, none, none, none⟩).viewTime = 3000 ∧
    effectiveEvent (builtRule initRegistry "x" ⟨none, none, none, none⟩) = "view_" ++ "x" ∧
    getAssoc initRegistry.sectionVisibility
      (addSectionVisibility initRegistry "x" ⟨none, none, none, none⟩).2 = none := by
  have h := addSectionVisibility_defaults_clamps_fresh_id initRegistry "x" ⟨none, none, none, none⟩
  exact ⟨h.2.2.1 rfl, h.2.2.2.2.2.2.2.1 rfl,
    h.2.2.2.2.2.2.2.2.2.2.1 (Or.inl rfl),
    (h.2.2.2.2.2.2.2.2.2.2.2.2 (by intro p hp; simp [initRegistry] at hp)).1⟩

/-- C7: `dropSectionVisibility` with an id not in the registry is a
silent no-op leaving the whole state unchanged, and with a present id
(under the `Map` key-uniqueness invariant) it removes the rule from the
id-keyed map and from the selector-keyed rule list. -/
theorem dropSectionVisibility_absent_noop_present_removes (st : Registry) (id : Nat) :
    (getAssoc st.sectionVisibility id = none → dropSectionVisibility st id = st) ∧
    (∀ r : Rule, (st.sectionVisibility.map Prod.fst).Nodup →
      getAssoc st.sectionVisibility id = some r →
      getAssoc (dropSectionVisibility st id).sectionVisibility id = none ∧
      ∀ s ∈ (getAssoc (dropSectionVisibility st id).selectorVisibilityMap r.selector).getD [],
        s.id ≠ id) := by
  constructor
  · intro h
    simp [dropSectionVisibility, h]
  · intro r hnd hr
    have hdel : getAssoc (deleteAssoc st.sectionVisibility id) id = none :=
      getAssoc_deleteAssoc_self st.sectionVisibility id hnd
    constructor
    · simp only [dropSectionVisibility, hr]
      cases hsel : getAssoc st.selectorVisibilityMap r.selector with
      | none => simpa [hsel] using hdel
      | some old =>
        by_cases hlen : old.length ≤ 0
        · simpa [hsel, hlen] using hdel
        · simpa [hsel, hlen] using hdel
    · intro s hs
      simp only [dropSectionVisibility, hr] at hs
      cases hsel : getAssoc st.selectorVisibilityMap r.selector with
      | none => simp [hsel] at hs
      | some old =>
        by_cases hlen : old.length ≤ 0
        · have hold0 : old = [] := List.length_eq_zero.mp (Nat.le_zero.mp hlen)
          simp [hsel, hlen, hold0] at hs
        · simp only [hsel, hlen, if_false] at hs
          rw [getAssoc_setAssoc_self] at hs
          simp only [Option.getD_some] at hs
          exact of_decide_eq_true (List.mem_filter.mp hs).2

/-- Witness for the C7 theorem: in the one-rule registry built from the
empty one, dropping the absent id 5 is a no-op and dropping the present
id 0 removes the rule from both indices. -/
theorem dropSectionVisibility_absent_noop_present_removes_witness :
    (let reg := (addSectionVisibility initRegistry "s" ⟨none, none, none, none⟩).1
     dropSectionVisibility reg 5 = reg ∧
     getAssoc (dropSectionVisibility reg 0).sectionVisibility 0 = none) := by
  have h5 := dropSectionVisibility_absent_noop_present_removes
    (addSectionVisibility initRegistry "s" ⟨none, none, none, none⟩).1 5
  have h0 := dropSectionVisibility_absent_noop_present_removes
    (addSectionVisibility initRegistry "s" ⟨none, none, none, none⟩).1 0
  refine ⟨h5.1 ?_, ((h0.2 (builtRule initRegistry "s" ⟨none, none, none, none⟩) ?_ ?_).1)⟩
  · simp [addSectionVisibility, initRegistry, setAssoc, getAssoc, builtRule]
  · simp [addSectionVisibility, initRegistry, setAssoc, builtRule]
  · simp [addSectionVisibility, initRegistry, setAssoc, getAssoc, builtRule]

/-- C9 counterexample: the claim concludes that a rule with a zero
scroll-depth or zero view-time threshold cannot be configured through
the public API, yet passing the negative values -10 and -500 clamps and
floors them to exactly 0, so a zero-threshold rule is reachable. -/
theorem addSectionVisibility_zero_thresholds_reachable_cex :
    getAssoc (addSectionVisibility initRegistry "x"
        ⟨none, some (-10), some (-500), none⟩).1.sectionVisibility 0 =
      some { id := 0, sectionName := "x", selector := defaultSelector "x",
             scrollDepth := 0, viewTime := 0, customEvent := "" } := by
  simp only [addSectionVisibility, builtRule, initRegistry, strOr, numOr, claim, setAssoc,
    getAssoc]
  norm_num [min_def, max_def]

/-- C9 (amended): an explicit 0 passed for `scrollDepth` or `viewTime`
is JavaScript-falsy, so `addSectionVisibility` replaces it by the
defaults 70 and 3000 — a zero threshold cannot be configured by passing
0 itself (though negative inputs still clamp and floor to 0, see the
counterexample). -/
theorem addSectionVisibility_explicit_zero_uses_defaults
    (st : Registry) (sectionName : String) (settings : SettingsArg) :
    getAssoc (addSectionVisibility st sectionName settings).1.sectionVisibility
        (addSectionVisibility st sectionName settings).2 =
      some (builtRule st sectionName settings) ∧
    (settings.scrollDepth = some 0 → (builtRule st sectionName settings).scrollDepth = 70) ∧
    (settings.viewTime = some 0 → (builtRule st sectionName settings).viewTime = 3000) := by
  refine ⟨addSectionVisibility_lookup st sectionName settings, ?_, ?_⟩
  · intro h; simp only [builtRule, numOr, claim, h]; norm_num [min_def, max_def]
  · intro h; simp only [builtRule, numOr, h]; norm_num [max_def]

/-- Witness for the amended C9 theorem at explicit zeros for both
thresholds. -/
theorem addSectionVisibility_explicit_zero_uses_defaults_witness :
    (builtRule initRegistry "x" ⟨none, some 0, some 0, none⟩).scrollDepth = 70 ∧
    (builtRule initRegistry "x" ⟨none, some 0, some 0, none⟩).viewTime = 3000 := by
  have h := addSectionVisibility_explicit_zero_uses_defaults initRegistry "x"
    ⟨none, some 0, some 0, none⟩
  exact ⟨h.2.1 rfl, h.2.2 rfl⟩

/-- C3 counterexample: the claim states the timer callback re-checks the
registry and emits nothing when the rule no longer exists, so a removed
rule never fires late.  In the code the callback only re-checks the
episode and the fired-rule set: with rule (20%, 1000ms, "e1") armed at
entry and then removed by `dropSectionVisibility`, the fired timer still
emits the event for an episode whose depth interval is 50. -/
theorem timerFire_after_rule_removed_cex :
    (let reg1 := (addSectionVisibility initRegistry "s"
        ⟨none, some 20, some 1000, some "e1"⟩).1
     let reg2 := dropSectionVisibility reg1 0
     let sec := entrySection (defaultSelector "s") 99 0 ⟨0, 100, 100⟩ (1/2)
     armedTimers reg1 (defaultSelector "s") =
       [{ id := 0, sectionName := "s", selector := defaultSelector "s",
          scrollDepth := 20, viewTime := 1000, customEvent := "e1" }] ∧
     getAssoc reg2.sectionVisibility 0 = none ∧
     getAssoc reg2.selectorVisibilityMap (defaultSelector "s") = some [] ∧
     (timerFire
        { id := 0, sectionName := "s", selector := defaultSelector "s",
          scrollDepth := 20, viewTime := 1000, customEvent := "e1" }
        (some sec)).2 =
       [{ event := "e1", sectionName := "s", viewTime := 1000, scrollDepth := JNum.num 50 }]) := by
  refine ⟨?_, ?_, ?_, ?_⟩
  · simp only [armedTimers, addSectionVisibility, builtRule, initRegistry, strOr, numOr, claim,
      setAssoc, getAssoc, defaultSelector]
    norm_num [min_def, max_def, List.filter]
    simp
  · simp only [dropSectionVisibility, addSectionVisibility, builtRule, initRegistry, strOr,
      numOr, claim, setAssoc, getAssoc, deleteAssoc, defaultSelector]
  · simp only [dropSectionVisibility, addSectionVisibility, builtRule, initRegistry, strOr,
      numOr, claim, setAssoc, getAssoc, deleteAssoc, defaultSelector]
    norm_num [min_def, max_def, List.filter]
  · simp only [timerFire, entrySection, ratioTopOf, sampleVisibleRatio, jdiv, jmul100, toFixed2,
      jaddc, jminc, jsub, JNum.ltc, effectiveEvent, defaultSelector]
    norm_num
    simp

/-- C3 (amended): removal does not cancel an already-armed timer, and
the fired timer re-checks only the episode's existence, the fired-rule
set and the depth threshold — never the registry; timers are armed
exclusively from the registry as it stands at entry time, so a rule
absent from the registry when an element enters view is never armed for
that element. -/
theorem timerFire_rechecks_episode_and_fired_set (reg : Registry) (setting : Rule)
    (sel : String) :
    timerFire setting none = (none, []) ∧
    (∀ sec : SectionTrackedData, setting.id ∈ sec.sentEventIds →
      timerFire setting (some sec) = (some sec, [])) ∧
    (∀ sec : SectionTrackedData,
      (jsub sec.maxScrollDepth sec.minScrollDepth).ltc setting.scrollDepth = true →
      timerFire setting (some sec) = (some sec, [])) ∧
    armedTimers reg sel =
      ((getAssoc reg.selectorVisibilityMap sel).getD []).filter (fun s => 0 < s.viewTime) ∧
    (setting ∉ (getAssoc reg.selectorVisibilityMap sel).getD [] →
      setting ∉ armedTimers reg sel) := by
  refine ⟨rfl, ?_, ?_, rfl, ?_⟩
  · intro sec h
    simp [timerFire, h]
  · intro sec h
    by_cases hm : setting.id ∈ sec.sentEventIds <;> simp [timerFire, hm, h]
  · intro h hmem
    exact h (List.mem_of_mem_filter hmem)

/-- Witness for the amended C3 theorem: the timer is a no-op on a gone
episode and on an episode that already fired the rule. -/
theorem timerFire_rechecks_episode_and_fired_set_witness :
    timerFire
      { id := 0, sectionName := "s", selector := defaultSelector "s",
        scrollDepth := 20, viewTime := 1000, customEvent := "e1" } none = (none, []) ∧
    timerFire
      { id := 0, sectionName := "s", selector := defaultSelector "s",
        scrollDepth := 20, viewTime := 1000, customEvent := "e1" }
      (some { start := 0, duration := 0, minScrollDepth := JNum.num 0,
              maxScrollDepth := JNum.num 50, selector := defaultSelector "s",
              id := 99, sentEventIds := [0] }) =
      (some { start := 0, duration := 0, minScrollDepth := JNum.num 0,
              maxScrollDepth := JNum.num 50, selector := defaultSelector "s",
              id := 99, sentEventIds := [0] }, []) := by
  have h := timerFire_rechecks_episode_and_fired_set initRegistry
    { id := 0, sectionName := "s", selector := defaultSelector "s",
      scrollDepth := 20, viewTime := 1000, customEvent := "e1" } (defaultSelector "s")
  exact ⟨h.1, h.2.1 _ (by simp)⟩

/-- C6 counterexample: the claim states a zero-height rectangle reports
depth 0 and that no NaN or infinity ever arises.  For the rectangle
with top = bottom = 10 and height 0 the scrolled-past ratio divides
0 by 0, so the per-sample depth is NaN, not 0. -/
theorem sampleDepth_zero_height_nan_cex :
    sampleDepth 800 { top := 10, bottom := 10, height := 0 } = JNum.nan ∧
    (sampleDepth 800 { top := 10, bottom := 10, height := 0 }).isNum = false := by
  constructor
  · simp only [sampleDepth, ratioTopOf, sampleVisibleRatio, jdiv, jmul100, toFixed2, jaddc,
      jminc]
    norm_num [max_def, min_def]
  · simp only [sampleDepth, ratioTopOf, sampleVisibleRatio, jdiv, jmul100, toFixed2, jaddc,
      jminc, JNum.isNum]
    norm_num [max_def, min_def]

/-- C6 (amended): for a zero-height rectangle
the guarded visible-ratio component is 0 (its division is protected),
but the scrolled-past ratio divides by the height unguarded, so the
combined per-sample depth is NaN whenever the element's top is at or
below the viewport origin, and is forced to 100 through an infinity
when the top is negative. -/
theorem sampleDepth_zero_height_amended (vh : ℚ) (rect : Rect)
    (hb : rect.bottom = rect.top + rect.height) (hh : rect.height = 0) :
    sampleVisibleRatio vh rect = 0 ∧
    (0 ≤ rect.top → sampleDepth vh rect = JNum.nan) ∧
    (rect.top < 0 → sampleDepth vh rect = JNum.num 100) := by
  refine ⟨?_, ?_, ?_⟩
  · simp only [sampleVisibleRatio, hh]
    split <;> simp
  · intro ht
    have hmax : max 0 (-rect.top) = 0 := max_eq_left (by linarith)
    simp [sampleDepth, ratioTopOf, jdiv, hh, hmax, jmul100, toFixed2, jaddc, jminc]
  · intro ht
    have hmax : max 0 (-rect.top) = -rect.top := max_eq_right (by linarith)
    have hbot : rect.bottom < 0 := by rw [hb, hh]; linarith
    have hpos : (0 : ℚ) < -rect.top := by linarith
    have hne : -rect.top ≠ 0 := ne_of_gt hpos
    simp [sampleDepth, ratioTopOf, jdiv, hh, hmax, hne, hpos, jmul100, toFixed2, jaddc, jminc,
      sampleVisibleRatio, hbot]

/-- Witness for the amended C6 geometry theorem at two concrete
zero-height rectangles, one with nonnegative top and one with negative
top. -/
theorem sampleDepth_zero_height_amended_witness :
    sampleVisibleRatio 800 { top := 10, bottom := 10, height := 0 } = 0 ∧
    sampleDepth 800 { top := 10, bottom := 10, height := 0 } = JNum.nan ∧
    sampleDepth 800 { top := -10, bottom := -10, height := 0 } = JNum.num 100 := by
  have h1 := sampleDepth_zero_height_amended 800 { top := 10, bottom := 10, height := 0 }
    (by norm_num) rfl
  have h2 := sampleDepth_zero_height_amended 800 { top := -10, bottom := -10, height := 0 }
    (by norm_num) rfl
  exact ⟨h1.1, h1.2.1 (by norm_num), h2.2.2 (by norm_num)⟩

theorem jsRound_nonneg (x : ℚ) (h : 0 ≤ x) : 0 ≤ jsRound x := by
  simp only [jsRound]
  have h2 : (0 : ℤ) ≤ round x := by
    rw [round_eq]
    exact Int.le_floor.mpr (by push_cast; linarith)
  exact_mod_cast h2

theorem jsRound_le_intCast (x : ℚ) (n : ℤ) (h : x ≤ (n : ℚ)) : jsRound x ≤ (n : ℚ) := by
  simp only [jsRound]
  have h2 : round x ≤ n := by
    rw [round_eq]
    have h3 : (⌊x + 1 / 2⌋ : ℤ) < n + 1 := Int.floor_lt.mpr (by push_cast; linarith)
    omega
  exact_mod_cast h2

theorem toFixed2_num_nonneg (q : ℚ) (h : 0 ≤ q) :
    ∃ r : ℚ, toFixed2 (JNum.num q) = JNum.num r ∧ 0 ≤ r := by
  refine ⟨((round (q * 100) : ℤ) : ℚ) / 100, rfl, ?_⟩
  have h2 : 0 ≤ jsRound (q * 100) := jsRound_nonneg _ (by positivity)
  simp only [jsRound] at h2
  positivity

theorem toFixed2_num_le_100 (q : ℚ) (h0 : 0 ≤ q) (h1 : q ≤ 100) :
    ∃ r : ℚ, toFixed2 (JNum.num q) = JNum.num r ∧ 0 ≤ r ∧ r ≤ 100 := by
  refine ⟨((round (q * 100) : ℤ) : ℚ) / 100, rfl, ?_, ?_⟩
  · have h2 : 0 ≤ jsRound (q * 100) := jsRound_nonneg _ (by positivity)
    simp only [jsRound] at h2
    positivity
  · have h2 : jsRound (q * 100) ≤ ((10000 : ℤ) : ℚ) := jsRound_le_intCast _ 10000 (by push_cast; linarith)
    simp only [jsRound] at h2
    rw [div_le_iff (by norm_num : (0:ℚ) < 100)]
    push_cast at h2 ⊢
    linarith

theorem ratioTopOf_num_nonneg (rect : Rect) (hh : 0 < rect.height) :
    ∃ r : ℚ, ratioTopOf rect = JNum.num r ∧ 0 ≤ r := by
  have hne : rect.height ≠ 0 := ne_of_gt hh
  have hq : 0 ≤ max 0 (-rect.top) / rect.height * 100 := by positivity
  obtain ⟨r, hr, hr0⟩ := toFixed2_num_nonneg _ hq
  refine ⟨r, ?_, hr0⟩
  simpa [ratioTopOf, jdiv, hne, jmul100] using hr

theorem ratioTopOf_entry_bounds (rect : Rect) (hh : 0 < rect.height)
    (hb : rect.bottom = rect.top + rect.height) (hbn : 0 ≤ rect.bottom) :
    ∃ r : ℚ, ratioTopOf rect = JNum.num r ∧ 0 ≤ r ∧ r ≤ 100 := by
  have hne : rect.height ≠ 0 := ne_of_gt hh
  have htop : -rect.top ≤ rect.height := by linarith [hb ▸ hbn]
  have hfrac : max 0 (-rect.top) / rect.height ≤ 1 := by
    rw [div_le_one hh]
    exact max_le (by linarith) htop
  have hq0 : 0 ≤ max 0 (-rect.top) / rect.height * 100 := by positivity
  have hq1 : max 0 (-rect.top) / rect.height * 100 ≤ 100 := by nlinarith
  obtain ⟨r, hr, hr0, hr1⟩ := toFixed2_num_le_100 _ hq0 hq1
  refine ⟨r, ?_, hr0, hr1⟩
  simpa [ratioTopOf, jdiv, hne, jmul100] using hr

theorem sampleVisibleRatio_nonneg (vh : ℚ) (rect : Rect) : 0 ≤ sampleVisibleRatio vh rect := by
  simp only [sampleVisibleRatio]
  split
  · exact le_refl 0
  · split
    · exact le_refl 0
    · split
      · next hpos =>
        exact jsRound_nonneg _ (by positivity)
      · exact le_refl 0

theorem sampleDepth_num_bounds (vh : ℚ) (rect : Rect) (hh : 0 < rect.height) :
    ∃ d : ℚ, sampleDepth vh rect = JNum.num d ∧ 0 ≤ d ∧ d ≤ 100 := by
  obtain ⟨r, hr, hr0⟩ := ratioTopOf_num_nonneg rect hh
  have hv := sampleVisibleRatio_nonneg vh rect
  refine ⟨min (r + sampleVisibleRatio vh rect) 100, ?_, ?_, min_le_right _ _⟩
  · simp [sampleDepth, hr, jaddc, jminc]
  · exact le_min (by linarith) (by norm_num)

/-- Episode bound invariant: both depth bounds are finite, the minimum
is nonnegative, the maximum is at most 100, and the interval is
ordered. -/
def BoundsOK (sec : SectionTrackedData) : Prop :=
  ∃ m M : ℚ, sec.minScrollDepth = JNum.num m ∧ sec.maxScrollDepth = JNum.num M ∧
    0 ≤ m ∧ M ≤ 100 ∧ m ≤ M

theorem scrollRuleFold_fields (settings : List Rule) (sent : List Nat) (d : ℚ) (sv : JNum)
    (acc : SectionTrackedData × List Payload) :
    (settings.foldl (scrollRuleStep sent d sv) acc).1.minScrollDepth = acc.1.minScrollDepth ∧
    (settings.foldl (scrollRuleStep sent d sv) acc).1.maxScrollDepth = acc.1.maxScrollDepth ∧
    (settings.foldl (scrollRuleStep sent d sv) acc).1.selector = acc.1.selector ∧
    (settings.foldl (scrollRuleStep sent d sv) acc).1.start = acc.1.start := by
  induction settings generalizing acc with
  | nil => exact ⟨rfl, rfl, rfl, rfl⟩
  | cons s t ih =>
    have hstep : (scrollRuleStep sent d sv acc s).1.minScrollDepth = acc.1.minScrollDepth ∧
        (scrollRuleStep sent d sv acc s).1.maxScrollDepth = acc.1.maxScrollDepth ∧
        (scrollRuleStep sent d sv acc s).1.selector = acc.1.selector ∧
        (scrollRuleStep sent d sv acc s).1.start = acc.1.start := by
      simp only [scrollRuleStep]
      split
      · exact ⟨rfl, rfl, rfl, rfl⟩
      · split
        · exact ⟨rfl, rfl, rfl, rfl⟩
        · split
          · exact ⟨rfl, rfl, rfl, rfl⟩
          · exact ⟨rfl, rfl, rfl, rfl⟩
    have hrest := ih (scrollRuleStep sent d sv acc s)
    simp only [List.foldl_cons]
    exact ⟨hrest.1.trans hstep.1, hrest.2.1.trans hstep.2.1, hrest.2.2.1.trans hstep.2.2.1,
      hrest.2.2.2.trans hstep.2.2.2⟩

theorem handleElementScroll_bounds (reg : Registry) (now vh : ℚ) (rect : Rect)
    (sec : SectionTrackedData) (hh : 0 < rect.height) (hB : BoundsOK sec) :
    BoundsOK (handleElementScroll reg now vh rect sec).1 ∧
    (handleElementScroll reg now vh rect sec).1.minScrollDepth.val ≤ sec.minScrollDepth.val ∧
    sec.maxScrollDepth.val ≤ (handleElementScroll reg now vh rect sec).1.maxScrollDepth.val ∧
    (handleElementScroll reg now vh rect sec).1.selector = sec.selector ∧
    (handleElementScroll reg now vh rect sec).1.start = sec.start := by
  obtain ⟨m, M, hm, hM, hm0, hM100, hmM⟩ := hB
  by_cases hsel : sec.selector = ""
  · refine ⟨⟨m, M, ?_, ?_, hm0, hM100, hmM⟩, ?_, ?_, ?_, ?_⟩ <;>
      simp [handleElementScroll, hsel, hm, hM]
  · obtain ⟨r, hr, hr0⟩ := ratioTopOf_num_nonneg rect hh
    obtain ⟨d, hd, hd0, hd100⟩ := sampleDepth_num_bounds vh rect hh
    have hfields := scrollRuleFold_fields
      ((getAssoc reg.selectorVisibilityMap sec.selector).getD [])
      sec.sentEventIds (now - sec.start)
      (jsub (jmax sec.maxScrollDepth (sampleDepth vh rect))
        (jmin sec.minScrollDepth (ratioTopOf rect)))
      ({ sec with
          minScrollDepth := jmin sec.minScrollDepth (ratioTopOf rect)
          maxScrollDepth := jmax sec.maxScrollDepth (sampleDepth vh rect) }, [])
    have hres : (handleElementScroll reg now vh rect sec).1.minScrollDepth =
          JNum.num (min m r) ∧
        (handleElementScroll reg now vh rect sec).1.maxScrollDepth =
          JNum.num (max M d) ∧
        (handleElementScroll reg now vh rect sec).1.selector = sec.selector ∧
        (handleElementScroll reg now vh rect sec).1.start = sec.start := by
      simp only [handleElementScroll, hsel, if_false]
      refine ⟨?_, ?_, ?_, ?_⟩
      · rw [hfields.1]; simp [hm, hr, jmin]
      · rw [hfields.2.1]; simp [hM, hd, jmax]
      · rw [hfields.2.2.1]
      · rw [hfields.2.2.2]
    refine ⟨⟨min m r, max M d, hres.1, hres.2.1, le_min hm0 hr0, max_le hM100 hd100,
        le_trans (min_le_left m r) (le_trans hmM (le_max_left M d))⟩, ?_, ?_,
      hres.2.2.1, hres.2.2.2⟩
    · rw [hres.1, hm]
      simp only [JNum.val]
      exact min_le_left m r
    · rw [hres.2.1, hM]
      simp only [JNum.val]
      exact le_max_left M d

theorem entrySection_bounds (sel : String) (id : Nat) (now : ℚ) (rect : Rect) (ir : ℚ)
    (hh : 0 < rect.height) (hb : rect.bottom = rect.top + rect.height)
    (hbn : 0 ≤ rect.bottom) (hir0 : 0 ≤ ir) (hir1 : ir ≤ 1) :
    BoundsOK (entrySection sel id now rect ir) ∧
    (entrySection sel id now rect ir).selector = sel ∧
    (entrySection sel id now rect ir).start = now := by
  obtain ⟨r, hr, hr0, hr100⟩ := ratioTopOf_entry_bounds rect hh hb hbn
  refine ⟨⟨r, min (r + ir * 100) 100, ?_, ?_, hr0, min_le_right _ _,
      le_min (by nlinarith) hr100⟩, rfl, rfl⟩
  · simp [entrySection, hr]
  · simp [entrySection, hr, jaddc, jminc]

/-- C5 (amended): over an episode whose entry snapshot is a genuine
intersection (positive height, consistent rectangle, bottom not above
the viewport origin, intersection ratio in [0, 1]) and whose every
scroll sample observes a positive element height, the minimum bound
only ever decreases and the maximum only ever increases, both stay
finite within [0, 100], and the terminal `section_view` event carries
exactly `max - min` at exit, a value in [0, 100].  Without the
positive-height proviso the bounds degrade to NaN (see the
counterexample). -/
theorem episode_bounds_monotone_and_exit_depth
    (reg : Registry) (sel : String) (id : Nat) (t0 : ℚ) (er : Rect) (ir : ℚ)
    (vh : ℚ) (samples : List (ℚ × Rect)) (texit : ℚ)
    (hh : 0 < er.height) (hb : er.bottom = er.top + er.height) (hbn : 0 ≤ er.bottom)
    (hir0 : 0 ≤ ir) (hir1 : ir ≤ 1)
    (hs : ∀ p ∈ samples, 0 < p.2.height) :
    BoundsOK (entrySection sel id t0 er ir) ∧
    (∀ (sec : SectionTrackedData) (t : ℚ) (r : Rect), 0 < r.height → BoundsOK sec →
      BoundsOK (handleElementScroll reg t vh r sec).1 ∧
      (handleElementScroll reg t vh r sec).1.minScrollDepth.val ≤ sec.minScrollDepth.val ∧
      sec.maxScrollDepth.val ≤ (handleElementScroll reg t vh r sec).1.maxScrollDepth.val) ∧
    BoundsOK (samples.foldl (fun sec p => (handleElementScroll reg p.1 vh p.2 sec).1)
      (entrySection sel id t0 er ir)) ∧
    (∀ run : SectionTrackedData, BoundsOK run →
      (exitStep texit sel (some run)).2 =
        [{ event := "section_view", sectionName := sel, viewTime := texit - run.start,
           scrollDepth := JNum.num (run.maxScrollDepth.val - run.minScrollDepth.val) }] ∧
      0 ≤ run.maxScrollDepth.val - run.minScrollDepth.val ∧
      run.maxScrollDepth.val - run.minScrollDepth.val ≤ 100) := by
  have hentry := entrySection_bounds sel id t0 er ir hh hb hbn hir0 hir1
  have hstep : ∀ (sec : SectionTrackedData) (t : ℚ) (r : Rect), 0 < r.height → BoundsOK sec →
      BoundsOK (handleElementScroll reg t vh r sec).1 ∧
      (handleElementScroll reg t vh r sec).1.minScrollDepth.val ≤ sec.minScrollDepth.val ∧
      sec.maxScrollDepth.val ≤ (handleElementScroll reg t vh r sec).1.maxScrollDepth.val := by
    intro sec t r hr hB
    have h := handleElementScroll_bounds reg t vh r sec hr hB
    exact ⟨h.1, h.2.1, h.2.2.1⟩
  have hfold : ∀ (l : List (ℚ × Rect)) (sec : SectionTrackedData),
      (∀ p ∈ l, 0 < p.2.height) → BoundsOK sec →
      BoundsOK (l.foldl (fun sec p => (handleElementScroll reg p.1 vh p.2 sec).1) sec) := by
    intro l
    induction l with
    | nil => intro sec _ hB; exact hB
    | cons p t ih =>
      intro sec hl hB
      have hp := hl p (List.mem_cons_self p t)
      have hB1 := (handleElementScroll_bounds reg p.1 vh p.2 sec hp hB).1
      exact ih _ (fun q hq => hl q (List.mem_cons_of_mem p hq)) hB1
  refine ⟨hentry.1, hstep, hfold samples _ hs hentry.1, ?_⟩
  intro run hB
  obtain ⟨m, M, hm, hM, hm0, hM100, hmM⟩ := hB
  refine ⟨?_, ?_, ?_⟩
  · simp [exitStep, hm, hM, jsub, JNum.val]
  · rw [hm, hM]; simp only [JNum.val]; linarith
  · rw [hm, hM]; simp only [JNum.val]; linarith

/-- C5 counterexample: the claim states the bounds stay within [0, 100]
for every episode and that the terminal event's depth is in [0, 100].
A scroll sample with a zero-height rectangle makes the minimum bound
NaN (the scrolled-past division is unguarded), and the terminal
`section_view` event then carries a NaN scroll depth. -/
theorem episode_bounds_nan_cex :
    (let run := (handleElementScroll initRegistry 1000 800
        { top := 5, bottom := 5, height := 0 }
        (entrySection "s" 7 0 { top := 0, bottom := 100, height := 100 } (1/2))).1
     run.minScrollDepth = JNum.nan ∧
     run.minScrollDepth.isNum = false ∧
     (exitStep 2000 "s" (some run)).2 =
       [{ event := "section_view", sectionName := "s", viewTime := 2000,
          scrollDepth := JNum.nan }] ∧
     ((exitStep 2000 "s" (some run)).2.map (fun p => p.scrollDepth.isNum)) = [false]) := by
  simp only [handleElementScroll, entrySection, ratioTopOf, sampleVisibleRatio, sampleDepth,
    jdiv, jmul100, toFixed2, jaddc, jminc, jmin, jmax, jsub, JNum.ltc, jsRound, JNum.isNum,
    exitStep, getAssoc, initRegistry, scrollRuleStep, List.foldl]
  norm_num
  simp [JNum.isNum]

/-- Witness for the amended C5 theorem: a concrete episode (entry fully
consistent, one positive-height sample) whose exit depth is finite and
within bounds. -/
theorem episode_bounds_monotone_and_exit_depth_witness :
    BoundsOK (entrySection "s" 7 0 { top := 0, bottom := 100, height := 100 } (1/2)) ∧
    BoundsOK ([((1000 : ℚ), ({ top := -80, bottom := 20, height := 100 } : Rect))].foldl
      (fun sec p => (handleElementScroll initRegistry p.1 800 p.2 sec).1)
      (entrySection "s" 7 0 { top := 0, bottom := 100, height := 100 } (1/2))) := by
  have h := episode_bounds_monotone_and_exit_depth initRegistry "s" 7 0
    { top := 0, bottom := 100, height := 100 } (1/2) 800
    [((1000 : ℚ), ({ top := -80, bottom := 20, height := 100 } : Rect))] 2000
    (by norm_num) (by norm_num) (by norm_num) (by norm_num) (by norm_num)
    (by intro p hp; simp at hp; rw [hp]; norm_num)
  exact ⟨h.1, h.2.2.1⟩

/-- The element ids matched by one selector, in document order. -/
def idsFor (dom : List DomElem) (sel : String) : List Nat :=
  (dom.filter (fun e => elemMatches e sel)).map DomElem.eid

/-- Whether some element of the document with the given id matches the
selector. -/
def domHasMatch (dom : List DomElem) (sel : String) (k : Nat) : Bool :=
  (dom.filter (fun e => elemMatches e sel)).any (fun e => e.eid == k)

/-- The last selector of the list that some document element with the
given id matches; this is the tag the initial scan leaves on that
element. -/
def lastTag (sels : List String) (dom : List DomElem) (k : Nat) : Option String :=
  sels.foldl (fun acc sel => if domHasMatch dom sel k then some sel else acc) none

theorem foldTrack_infra (sel : String) (l : List DomElem) (ts : TrackState) :
    (l.foldl (fun ts e => trackSectionView ts e sel) ts).isVisibilityTrackingInitialized =
      ts.isVisibilityTrackingInitialized ∧
    (l.foldl (fun ts e => trackSectionView ts e sel) ts).intersectionObservers =
      ts.intersectionObservers ∧
    (l.foldl (fun ts e => trackSectionView ts e sel) ts).scrollResizeListeners =
      ts.scrollResizeListeners ∧
    (l.foldl (fun ts e => trackSectionView ts e sel) ts).beforeUnloadListeners =
      ts.beforeUnloadListeners ∧
    (l.foldl (fun ts e => trackSectionView ts e sel) ts).mutationObservers =
      ts.mutationObservers := by
  induction l generalizing ts with
  | nil => exact ⟨rfl, rfl, rfl, rfl, rfl⟩
  | cons e t ih =>
    simp only [List.foldl_cons]
    exact ih (trackSectionView ts e sel)

theorem initialScan_infra (reg : Registry) (dom : List DomElem) (ts : TrackState) :
    (initialScan reg dom ts).isVisibilityTrackingInitialized =
      ts.isVisibilityTrackingInitialized ∧
    (initialScan reg dom ts).intersectionObservers = ts.intersectionObservers ∧
    (initialScan reg dom ts).scrollResizeListeners = ts.scrollResizeListeners ∧
    (initialScan reg dom ts).beforeUnloadListeners = ts.beforeUnloadListeners ∧
    (initialScan reg dom ts).mutationObservers = ts.mutationObservers := by
  simp only [initialScan]
  induction getRegisteredSelectors reg generalizing ts with
  | nil => exact ⟨rfl, rfl, rfl, rfl, rfl⟩
  | cons sel rest ih =>
    simp only [List.foldl_cons]
    have h1 := foldTrack_infra sel (dom.filter (fun e => elemMatches e sel)) ts
    have h2 := ih (scanSelector dom sel ts)
    simp only [scanSelector] at h2 ⊢
    exact ⟨h2.1.trans h1.1, h2.2.1.trans h1.2.1, h2.2.2.1.trans h1.2.2.1,
      h2.2.2.2.1.trans h1.2.2.2.1, h2.2.2.2.2.trans h1.2.2.2.2⟩

theorem foldTrack_observed (sel : String) (l : List DomElem) (ts : TrackState) :
    (l.foldl (fun ts e => trackSectionView ts e sel) ts).observed =
      (l.map DomElem.eid).foldl insertIfAbsent ts.observed := by
  induction l generalizing ts with
  | nil => rfl
  | cons e t ih =>
    simp only [List.foldl_cons, List.map_cons]
    exact ih (trackSectionView ts e sel)

theorem initialScan_observed (reg : Registry) (dom : List DomElem) (ts : TrackState) :
    (initialScan reg dom ts).observed =
      ((getRegisteredSelectors reg).flatMap (fun sel => idsFor dom sel)).foldl
        insertIfAbsent ts.observed := by
  simp only [initialScan]
  induction getRegisteredSelectors reg generalizing ts with
  | nil => rfl
  | cons sel rest ih =>
    simp only [List.foldl_cons, List.flatMap_cons, List.foldl_append]
    rw [ih (scanSelector dom sel ts)]
    congr 1
    simpa [scanSelector, idsFor] using foldTrack_observed sel _ ts

theorem mem_insFold_of_mem_acc (l : List Nat) (acc : List Nat) (x : Nat) (h : x ∈ acc) :
    x ∈ l.foldl insertIfAbsent acc := by
  induction l generalizing acc with
  | nil => exact h
  | cons a t ih =>
    simp only [List.foldl_cons]
    apply ih
    simp only [insertIfAbsent]
    split
    · exact h
    · exact List.mem_append_left _ h

theorem mem_insFold_of_mem (l : List Nat) (acc : List Nat) (x : Nat) (h : x ∈ l) :
    x ∈ l.foldl insertIfAbsent acc := by
  induction l generalizing acc with
  | nil => simp at h
  | cons a t ih =>
    simp only [List.foldl_cons]
    rcases List.mem_cons.mp h with h1 | h1
    · subst h1
      apply mem_insFold_of_mem_acc
      simp only [insertIfAbsent]
      split
      · assumption
      · exact List.mem_append_right _ (List.mem_singleton_self x)
    · exact ih _ h1

theorem insFold_eq_of_subset (l : List Nat) (acc : List Nat) (h : ∀ x ∈ l, x ∈ acc) :
    l.foldl insertIfAbsent acc = acc := by
  induction l with
  | nil => rfl
  | cons a t ih =>
    simp only [List.foldl_cons, insertIfAbsent, h a (List.mem_cons_self a t), if_true]
    exact ih (fun x hx => h x (List.mem_cons_of_mem a hx))

theorem insFold_idem (l : List Nat) (acc : List Nat) :
    l.foldl insertIfAbsent (l.foldl insertIfAbsent acc) = l.foldl insertIfAbsent acc :=
  insFold_eq_of_subset l _ (fun x hx => mem_insFold_of_mem l acc x hx)

theorem foldTrack_tagged_lookup (sel : String) (l : List DomElem) (ts : TrackState) (k : Nat) :
    getAssoc (l.foldl (fun ts e => trackSectionView ts e sel) ts).tagged k =
      if l.any (fun e => e.eid == k) then some sel else getAssoc ts.tagged k := by
  induction l generalizing ts with
  | nil => simp
  | cons e t ih =>
    simp only [List.foldl_cons, List.any_cons]
    rw [ih (trackSectionView ts e sel)]
    by_cases ht : t.any (fun e => e.eid == k)
    · simp [ht]
    · by_cases he : e.eid = k
      · subst he
        simp [ht, trackSectionView, getAssoc_setAssoc_self]
      · simp only [ht, Bool.or_false, if_false]
        have hne : k ≠ e.eid := fun h => he h.symm
        simp [he, trackSectionView, getAssoc_setAssoc_other ts.tagged e.eid k sel hne]

theorem scanSelector_tagged_lookup (dom : List DomElem) (sel : String) (ts : TrackState)
    (k : Nat) :
    getAssoc (scanSelector dom sel ts).tagged k =
      if domHasMatch dom sel k then some sel else getAssoc ts.tagged k := by
  simpa [scanSelector, domHasMatch] using
    foldTrack_tagged_lookup sel (dom.filter (fun e => elemMatches e sel)) ts k

theorem lastTagAux (dom : List DomElem) (k : Nat) (sels : List String) (acc : Option String) :
    sels.foldl (fun acc sel => if domHasMatch dom sel k then some sel else acc) acc =
      match lastTag sels dom k with
      | some v => some v
      | none => acc := by
  induction sels generalizing acc with
  | nil => simp [lastTag]
  | cons s rest ih =>
    simp only [lastTag, List.foldl_cons] at ih ⊢
    rw [ih (if domHasMatch dom s k then some s else acc),
      ih (if domHasMatch dom s k then some s else none)]
    by_cases hs : domHasMatch dom s k <;>
      simp only [hs, if_true, if_false] <;>
      cases rest.foldl (fun acc sel => if domHasMatch dom sel k = true then some sel else acc)
        none <;>
      simp

theorem scanAll_tagged_lookup (dom : List DomElem) (sels : List String) (ts : TrackState)
    (k : Nat) :
    getAssoc (sels.foldl (fun ts sel => scanSelector dom sel ts) ts).tagged k =
      match lastTag sels dom k with
      | some v => some v
      | none => getAssoc ts.tagged k := by
  induction sels generalizing ts with
  | nil => simp [lastTag]
  | cons s rest ih =>
    simp only [List.foldl_cons]
    rw [ih (scanSelector dom s ts)]
    have haux := lastTagAux dom k rest (if domHasMatch dom s k then some s else none)
    have hcons : lastTag (s :: rest) dom k =
        match lastTag rest dom k with
        | some v => some v
        | none => (if domHasMatch dom s k then some s else none) := by
      simp only [lastTag, List.foldl_cons]
      exact haux
    rw [hcons, scanSelector_tagged_lookup]
    cases lastTag rest dom k with
    | none => by_cases h : domHasMatch dom s k <;> simp [h]
    | some v => simp

theorem initialScan_tagged_lookup (reg : Registry) (dom : List DomElem) (ts : TrackState)
    (k : Nat) :
    getAssoc (initialScan reg dom ts).tagged k =
      match lastTag (getRegisteredSelectors reg) dom k with
      | some v => some v
      | none => getAssoc ts.tagged k :=
  scanAll_tagged_lookup dom (getRegisteredSelectors reg) ts k

theorem lastTag_isSome_of_match (dom : List DomElem) (k : Nat) (sels : List String)
    (sel : String) (hsel : sel ∈ sels) (hmatch : domHasMatch dom sel k = true) :
    (lastTag sels dom k).isSome = true := by
  induction sels with
  | nil => simp at hsel
  | cons s rest ih =>
    have hcons : lastTag (s :: rest) dom k =
        match lastTag rest dom k with
        | some v => some v
        | none => (if domHasMatch dom s k then some s else none) := by
      simp only [lastTag, List.foldl_cons]
      exact lastTagAux dom k rest _
    rw [hcons]
    rcases List.mem_cons.mp hsel with h1 | h1
    · subst h1
      cases lastTag rest dom k with
      | some v => simp
      | none => simp [hmatch]
    · have := ih h1
      cases hlt : lastTag rest dom k with
      | some v => simp
      | none => rw [hlt] at this; simp at this

theorem initVisibilityTracking_flag (ts : TrackState) :
    (initVisibilityTracking ts).isVisibilityTrackingInitialized = true := by
  simp only [initVisibilityTracking]
  split
  · assumption
  · rfl

theorem initVisibilityTracking_noop (ts : TrackState)
    (h : ts.isVisibilityTrackingInitialized = true) : initVisibilityTracking ts = ts := by
  simp [initVisibilityTracking, h]

theorem initVisibilityTracking_other (ts : TrackState) :
    (initVisibilityTracking ts).observed = ts.observed ∧
    (initVisibilityTracking ts).tagged = ts.tagged ∧
    (initVisibilityTracking ts).mutationObservers = ts.mutationObservers := by
  simp only [initVisibilityTracking]
  split
  · exact ⟨rfl, rfl, rfl⟩
  · exact ⟨rfl, rfl, rfl⟩

/-- C8 counterexample: the claim states mutation observation is
initialized exactly once and a second `trackSectionVisibility` call has
no additional observable effect; the code constructs and registers a
fresh `MutationObserver` on every call, so the second call leaves a
different state with two registered mutation observers. -/
theorem trackSectionVisibility_second_call_cex :
    trackSectionVisibility initRegistry []
        (trackSectionVisibility initRegistry [] initTrackState) ≠
      trackSectionVisibility initRegistry [] initTrackState ∧
    (trackSectionVisibility initRegistry []
        (trackSectionVisibility initRegistry [] initTrackState)).mutationObservers = 2 ∧
    (trackSectionVisibility initRegistry [] initTrackState).mutationObservers = 1 := by
  refine ⟨?_, rfl, rfl⟩
  intro h
  have h2 := congrArg TrackState.mutationObservers h
  simp [trackSectionVisibility, initVisibilityTracking, initialScan, initRegistry,
    getRegisteredSelectors, initTrackState] at h2

/-- C8 (amended): the flag-guarded infrastructure — the intersection
observer, the scroll and resize listeners and the beforeunload flush
listener — is initialized lazily and exactly once on the first
`trackSectionVisibility` call; a second call re-runs the initial scan,
which re-observes and re-tags only what the first call already did
(observed set and tag lookups unchanged), but each call does register
one additional mutation observer. -/
theorem trackSectionVisibility_once_init_idempotent_scan
    (reg : Registry) (dom : List DomElem) (ts : TrackState) :
    (trackSectionVisibility reg dom ts).isVisibilityTrackingInitialized = true ∧
    (trackSectionVisibility reg dom (trackSectionVisibility reg dom ts)).intersectionObservers =
      (trackSectionVisibility reg dom ts).intersectionObservers ∧
    (trackSectionVisibility reg dom (trackSectionVisibility reg dom ts)).scrollResizeListeners =
      (trackSectionVisibility reg dom ts).scrollResizeListeners ∧
    (trackSectionVisibility reg dom (trackSectionVisibility reg dom ts)).beforeUnloadListeners =
      (trackSectionVisibility reg dom ts).beforeUnloadListeners ∧
    (trackSectionVisibility reg dom (trackSectionVisibility reg dom ts)).observed =
      (trackSectionVisibility reg dom ts).observed ∧
    (∀ k : Nat,
      getAssoc (trackSectionVisibility reg dom (trackSectionVisibility reg dom ts)).tagged k =
      getAssoc (trackSectionVisibility reg dom ts).tagged k) ∧
    (trackSectionVisibility reg dom (trackSectionVisibility reg dom ts)).mutationObservers =
      (trackSectionVisibility reg dom ts).mutationObservers + 1 ∧
    (ts.isVisibilityTrackingInitialized = false →
      (trackSectionVisibility reg dom ts).intersectionObservers =
        ts.intersectionObservers + 1 ∧
      (trackSectionVisibility reg dom ts).scrollResizeListeners =
        ts.scrollResizeListeners + 2 ∧
      (trackSectionVisibility reg dom ts).beforeUnloadListeners =
        ts.beforeUnloadListeners + 1) ∧
    (ts.isVisibilityTrackingInitialized = true →
      (trackSectionVisibility reg dom ts).intersectionObservers = ts.intersectionObservers ∧
      (trackSectionVisibility reg dom ts).scrollResizeListeners = ts.scrollResizeListeners ∧
      (trackSectionVisibility reg dom ts).beforeUnloadListeners = ts.beforeUnloadListeners) := by
  have htrack : ∀ s : TrackState, trackSectionVisibility reg dom s =
      initialScan reg dom
        { initVisibilityTracking s with
            mutationObservers := (initVisibilityTracking s).mutationObservers + 1 } :=
    fun s => rfl
  have hflag : ∀ s : TrackState,
      (trackSectionVisibility reg dom s).isVisibilityTrackingInitialized = true := by
    intro s
    rw [htrack s]
    rw [(initialScan_infra reg dom _).1]
    exact initVisibilityTracking_flag s
  have hobs : ∀ s : TrackState, (trackSectionVisibility reg dom s).observed =
      ((getRegisteredSelectors reg).flatMap (fun sel => idsFor dom sel)).foldl
        insertIfAbsent s.observed := by
    intro s
    rw [htrack s, initialScan_observed]
    have h1 := initVisibilityTracking_other s
    simp only [h1.1]
  have htag : ∀ (s : TrackState) (k : Nat),
      getAssoc (trackSectionVisibility reg dom s).tagged k =
        match lastTag (getRegisteredSelectors reg) dom k with
        | some v => some v
        | none => getAssoc s.tagged k := by
    intro s k
    rw [htrack s, initialScan_tagged_lookup]
    have h1 := initVisibilityTracking_other s
    simp only [h1.2.1]
  have hmut : ∀ s : TrackState, (trackSectionVisibility reg dom s).mutationObservers =
      s.mutationObservers + 1 := by
    intro s
    rw [htrack s, (initialScan_infra reg dom _).2.2.2.2]
    simp only [(initVisibilityTracking_other s).2.2]
  have hio : ∀ s : TrackState, (trackSectionVisibility reg dom s).intersectionObservers =
      (initVisibilityTracking s).intersectionObservers := by
    intro s
    rw [htrack s, (initialScan_infra reg dom _).2.1]
  have hsrl : ∀ s : TrackState, (trackSectionVisibility reg dom s).scrollResizeListeners =
      (initVisibilityTracking s).scrollResizeListeners := by
    intro s
    rw [htrack s, (initialScan_infra reg dom _).2.2.1]
  have hbul : ∀ s : TrackState, (trackSectionVisibility reg dom s).beforeUnloadListeners =
      (initVisibilityTracking s).beforeUnloadListeners := by
    intro s
    rw [htrack s, (initialScan_infra reg dom _).2.2.2.1]
  have hnoop := initVisibilityTracking_noop (trackSectionVisibility reg dom ts) (hflag ts)
  refine ⟨hflag ts, ?_, ?_, ?_, ?_, ?_, hmut _, ?_, ?_⟩
  · rw [hio _, hnoop]
  · rw [hsrl _, hnoop]
  · rw [hbul _, hnoop]
  · rw [hobs _, hobs ts, insFold_idem]
  · intro k
    rw [htag _ k, htag ts k]
    cases hlt : lastTag (getRegisteredSelectors reg) dom k <;> simp [hlt]
  · intro h
    refine ⟨?_, ?_, ?_⟩ <;>
      [rw [hio ts]; rw [hsrl ts]; rw [hbul ts]] <;>
      simp [initVisibilityTracking, h]
  · intro h
    refine ⟨?_, ?_, ?_⟩ <;>
      [rw [hio ts]; rw [hsrl ts]; rw [hbul ts]] <;>
      rw [initVisibilityTracking_noop ts h]

/-- Witness for the amended C8 theorem at the fresh instance state with
an empty registry and empty document. -/
theorem trackSectionVisibility_once_init_idempotent_scan_witness :
    (trackSectionVisibility initRegistry [] initTrackState).isVisibilityTrackingInitialized =
      true ∧
    (trackSectionVisibility initRegistry [] initTrackState).intersectionObservers = 1 ∧
    (trackSectionVisibility initRegistry [] initTrackState).scrollResizeListeners = 2 ∧
    (trackSectionVisibility initRegistry []
        (trackSectionVisibility initRegistry [] initTrackState)).observed =
      (trackSectionVisibility initRegistry [] initTrackState).observed := by
  have h := trackSectionVisibility_once_init_idempotent_scan initRegistry [] initTrackState
  have hfirst := h.2.2.2.2.2.2.2.1 rfl
  exact ⟨h.1, hfirst.1, hfirst.2.1, h.2.2.2.2.1⟩

theorem deleteAssoc_setAssoc_fresh {α β : Type} [DecidableEq α] (l : List (α × β)) (k : α)
    (v : β) (h : k ∉ l.map Prod.fst) : deleteAssoc (setAssoc l k v) k = l := by
  induction l with
  | nil => simp [setAssoc, deleteAssoc]
  | cons p t ih =>
    obtain ⟨k1, v1⟩ := p
    simp only [List.map_cons, List.mem_cons] at h
    push_neg at h
    have h1 : k1 ≠ k := Ne.symm h.1
    simp [setAssoc, deleteAssoc, h1, ih h.2]

theorem trackSectionVisibility_observed (reg : Registry) (dom : List DomElem)
    (s : TrackState) :
    (trackSectionVisibility reg dom s).observed =
      ((getRegisteredSelectors reg).flatMap (fun sel => idsFor dom sel)).foldl
        insertIfAbsent s.observed := by
  have htrack : trackSectionVisibility reg dom s =
      initialScan reg dom
        { initVisibilityTracking s with
            mutationObservers := (initVisibilityTracking s).mutationObservers + 1 } := rfl
  rw [htrack, initialScan_observed]
  simp only [(initVisibilityTracking_other s).1]

theorem trackSectionVisibility_tagged (reg : Registry) (dom : List DomElem)
    (s : TrackState) (k : Nat) :
    getAssoc (trackSectionVisibility reg dom s).tagged k =
      match lastTag (getRegisteredSelectors reg) dom k with
      | some v => some v
      | none => getAssoc s.tagged k := by
  have htrack : trackSectionVisibility reg dom s =
      initialScan reg dom
        { initVisibilityTracking s with
            mutationObservers := (initVisibilityTracking s).mutationObservers + 1 } := rfl
  rw [htrack, initialScan_tagged_lookup]
  simp only [(initVisibilityTracking_other s).2.1]

/-- C10: after `dropSectionVisibility` removes the last rule of a
selector, the selector stays a key of the selector index, now mapped to
the empty list, and is still a registered selector; only the id-keyed
entry and the rule's list entry are removed; consequently elements
matching the selector are still tagged and observed by
`trackSectionVisibility`, and an episode exit still emits the terminal
`section_view` summary event (the exit branch never consults the
registry). -/
theorem dropSectionVisibility_last_rule_keeps_selector_key
    (st : Registry) (sectionName : String) (settings : SettingsArg)
    (hfresh : FreshIds st)
    (hprior : (getAssoc st.selectorVisibilityMap
        (builtRule st sectionName settings).selector).getD [] = []) :
    getAssoc (dropSectionVisibility (addSectionVisibility st sectionName settings).1
          (addSectionVisibility st sectionName settings).2).selectorVisibilityMap
        (builtRule st sectionName settings).selector = some [] ∧
    (builtRule st sectionName settings).selector ∈
      getRegisteredSelectors (dropSectionVisibility
        (addSectionVisibility st sectionName settings).1
        (addSectionVisibility st sectionName settings).2) ∧
    getAssoc (dropSectionVisibility (addSectionVisibility st sectionName settings).1
          (addSectionVisibility st sectionName settings).2).sectionVisibility
        (addSectionVisibility st sectionName settings).2 = none ∧
    (∀ k : Nat, k ≠ (addSectionVisibility st sectionName settings).2 →
      getAssoc (dropSectionVisibility (addSectionVisibility st sectionName settings).1
          (addSectionVisibility st sectionName settings).2).sectionVisibility k =
        getAssoc st.sectionVisibility k) ∧
    (∀ (dom : List DomElem) (ts : TrackState) (e : DomElem), e ∈ dom →
      elemMatches e (builtRule st sectionName settings).selector = true →
      e.eid ∈ (trackSectionVisibility (dropSectionVisibility
          (addSectionVisibility st sectionName settings).1
          (addSectionVisibility st sectionName settings).2) dom ts).observed ∧
      (getAssoc (trackSectionVisibility (dropSectionVisibility
          (addSectionVisibility st sectionName settings).1
          (addSectionVisibility st sectionName settings).2) dom ts).tagged e.eid).isSome =
        true) ∧
    (∀ (now : ℚ) (tracked : SectionTrackedData),
      ((exitStep now (builtRule st sectionName settings).selector (some tracked)).2.map
        Payload.event) = ["section_view"]) := by
  have hid : (addSectionVisibility st sectionName settings).2 = st.nextId := rfl
  have hnotmem : st.nextId ∉ st.sectionVisibility.map Prod.fst := by
    intro hmem
    rcases List.mem_map.mp hmem with ⟨p, hp, he⟩
    have := hfresh p hp
    omega
  have hsv1 : (addSectionVisibility st sectionName settings).1.sectionVisibility =
      setAssoc st.sectionVisibility st.nextId (builtRule st sectionName settings) := rfl
  have hmap1 : (addSectionVisibility st sectionName settings).1.selectorVisibilityMap =
      setAssoc st.selectorVisibilityMap (builtRule st sectionName settings).selector
        [builtRule st sectionName settings] := by
    simp only [addSectionVisibility]
    rw [hprior]
    simp
  have hlookup : getAssoc (addSectionVisibility st sectionName settings).1.sectionVisibility
      st.nextId = some (builtRule st sectionName settings) := by
    rw [hsv1]
    exact getAssoc_setAssoc_self _ _ _
  have hdrop : dropSectionVisibility (addSectionVisibility st sectionName settings).1
      st.nextId =
      { sectionVisibility := st.sectionVisibility
        selectorVisibilityMap :=
          setAssoc (setAssoc st.selectorVisibilityMap
              (builtRule st sectionName settings).selector
              [builtRule st sectionName settings])
            (builtRule st sectionName settings).selector []
        nextId := st.nextId + 1 } := by
    simp only [dropSectionVisibility, hlookup]
    rw [hsv1, deleteAssoc_setAssoc_fresh _ _ _ hnotmem]
    rw [hmap1, getAssoc_setAssoc_self]
    have hfilter : List.filter (fun s => !decide (s.id = st.nextId))
        [builtRule st sectionName settings] = [] := by
      simp [builtRule]
    simp only [List.length_cons, List.length_nil]
    norm_num
    rw [hfilter]
    exact ⟨rfl, rfl⟩
  rw [hid, hdrop]
  refine ⟨getAssoc_setAssoc_self _ _ _, ?_, ?_, ?_, ?_, ?_⟩
  · exact mem_keys_setAssoc _ _ _
  · exact getAssoc_eq_none_of_not_mem_keys _ _ hnotmem
  · intro k hk
    rfl
  · intro dom ts e he hm
    constructor
    · rw [trackSectionVisibility_observed]
      apply mem_insFold_of_mem
      apply List.mem_flatMap.mpr
      refine ⟨(builtRule st sectionName settings).selector, mem_keys_setAssoc _ _ _, ?_⟩
      simp only [idsFor]
      exact List.mem_map.mpr ⟨e, List.mem_filter.mpr ⟨he, hm⟩, rfl⟩
    · rw [trackSectionVisibility_tagged]
      have hsome := lastTag_isSome_of_match dom e.eid
        (getRegisteredSelectors
          { sectionVisibility := st.sectionVisibility
            selectorVisibilityMap :=
              setAssoc (setAssoc st.selectorVisibilityMap
                  (builtRule st sectionName settings).selector
                  [builtRule st sectionName settings])
                (builtRule st sectionName settings).selector []
            nextId := st.nextId + 1 })
        (builtRule st sectionName settings).selector
        (mem_keys_setAssoc _ _ _)
        (by
          simp only [domHasMatch]
          exact List.any_eq_true.mpr ⟨e, List.mem_filter.mpr ⟨he, hm⟩, by simp⟩)
      cases hlt : lastTag _ dom e.eid with
      | some v => simp
      | none => rw [hlt] at hsome; simp at hsome
  · intro now tracked
    simp [exitStep]

/-- Witness for the C10 theorem: add one rule to the empty registry and
drop it again; its default selector keeps its (now empty) index entry
and a matching element is still observed by the scan. -/
theorem dropSectionVisibility_last_rule_keeps_selector_key_witness :
    getAssoc (dropSectionVisibility
        (addSectionVisibility initRegistry "s" ⟨none, none, none, none⟩).1
        (addSectionVisibility initRegistry "s" ⟨none, none, none, none⟩).2).selectorVisibilityMap
      (builtRule initRegistry "s" ⟨none, none, none, none⟩).selector = some [] ∧
    (7 : Nat) ∈ (trackSectionVisibility (dropSectionVisibility
        (addSectionVisibility initRegistry "s" ⟨none, none, none, none⟩).1
        (addSectionVisibility initRegistry "s" ⟨none, none, none, none⟩).2)
      [{ eid := 7, sels := [(builtRule initRegistry "s" ⟨none, none, none, none⟩).selector] }]
      initTrackState).observed := by
  have h := dropSectionVisibility_last_rule_keeps_selector_key initRegistry "s"
    ⟨none, none, none, none⟩
    (by intro p hp; simp [initRegistry] at hp)
    (by simp [initRegistry, getAssoc])
  refine ⟨h.1, ?_⟩
  have h2 := h.2.2.2.2.1
    [{ eid := 7, sels := [(builtRule initRegistry "s" ⟨none, none, none, none⟩).selector] }]
    initTrackState
    { eid := 7, sels := [(builtRule initRegistry "s" ⟨none, none, none, none⟩).selector] }
    (List.mem_singleton_self _)
    (by simp [elemMatches])
  exact h2.1
